import Mathlib

/-!
Shallow embedding of the pool-statistics subsystem of the spotnet repository
(margin/margin_app): the `pool_statistic_view` query built by
`_PoolStatisticViewQueryBuilder` in `app/models/pool.py`, the
`PoolCRUD.fetch_all_with_amount_delta` and `UserPoolCRUD.update_user_pool`
operations in `app/crud/pool.py`, and the window-frame interval extension in
`app/db/extensions/range_interval.py`.

Modelling conventions:
* timestamps (`created_at`, `now`) are integers counting seconds;
* monetary amounts (`Decimal` in the source) are integers: `Decimal` is a
  fixed-point decimal, and the claims involve only addition, subtraction,
  comparison and zero tests, which scaling to the smallest decimal unit
  preserves;
* primary keys (UUIDs in the source) are naturals;
* SQL NULL is `Option.none`.
-/

/-- Risk classification of a pool (`PoolRiskStatus` enum in
`app/models/pool.py`). -/
inductive PoolRiskStatus
  | low
  | medium
  | high
  deriving DecidableEq, Repr

/-- A row of the `pool` table (`Pool` model in `app/models/pool.py`):
identity plus a token symbol and a risk status. -/
structure PoolRec where
  id : Nat
  token : String
  risk_status : PoolRiskStatus
  deriving DecidableEq, Repr

/-- A row of the `user_pool` table (`UserPool` model in `app/models/pool.py`):
a user's contribution to a pool, with a monetary `amount` and the
`created_at` timestamp that orders all time-windowed computation. -/
structure Contribution where
  id : Nat
  user_id : Nat
  pool_id : Nat
  amount : ℤ
  created_at : ℤ
  deriving DecidableEq, Repr

/-- The contributions belonging to one pool: the SQL `partition_by pool_id` /
`WHERE user_pool.pool_id = pool.id` restriction. -/
def poolContribs (contribs : List Contribution) (pid : Nat) : List Contribution :=
  contribs.filter (fun c => c.pool_id = pid)

/-- First row of a contribution list under `ORDER BY created_at ASC`
(earliest contribution; ties resolved to the earliest-listed row, a
deterministic refinement of the arbitrary SQL tie-break).
Models `first_value(amount) OVER (... ORDER BY created_at ASC)` and
`ORDER BY created_at ASC LIMIT 1`. -/
def minByCreated : List Contribution → Option Contribution
  | [] => none
  | c :: cs =>
    some (match minByCreated cs with
      | none => c
      | some m => if m.created_at < c.created_at then m else c)

/-- First row of a contribution list under `ORDER BY created_at DESC`
(latest contribution; ties resolved to the earliest-listed row).
Models `first_value(amount) OVER (... ORDER BY created_at DESC)` and
`ORDER BY created_at DESC LIMIT 1`. -/
def maxByCreated : List Contribution → Option Contribution
  | [] => none
  | c :: cs =>
    some (match maxByCreated cs with
      | none => c
      | some m => if m.created_at > c.created_at then m else c)

/-- A scalar time expression as it stands in a compiled SQL statement.
`lit t` is a frozen literal timestamp: the Python expression
`datetime.now(UTC) - timedelta(...)` is evaluated eagerly when the query is
built and the resulting constant is rendered into the SQL text by
`literal_binds=True` (`_create_view` in `app/db/extensions/views.py`).
`nowMinus s` is `now() - <interval>` (as produced by
`sa.func.now() - amount_for_delta` in `app/crud/pool.py`), which the
database evaluates at the time the statement is executed. -/
inductive SqlTime
  | lit (t : ℤ)
  | nowMinus (secs : ℤ)
  deriving DecidableEq, Repr

/-- Evaluate a SQL time expression at a given statement-execution time. -/
def SqlTime.evalAt (readTime : ℤ) : SqlTime → ℤ
  | .lit t => t
  | .nowMinus s => readTime - s

/-- The horizon cutoff appearing in
`_PoolStatisticViewQueryBuilder._get_first_amount_stmt`:
`UserPool.created_at >= datetime.now(UTC) - timedelta(hours=within_hours)`.
Python evaluates the right-hand side when the view SELECT is built (at module
import), so the compiled statement carries the literal
`buildNow - withinHours * 3600`. -/
def viewCutoffExpr (buildNow : ℤ) (withinHours : Nat) : SqlTime :=
  .lit (buildNow - withinHours * 3600)

/-- The window lower bound of `PoolCRUD.fetch_all_with_amount_delta`:
`UserPool.created_at >= sa.func.now() - amount_for_delta`, i.e. SQL
`now() - interval`, evaluated by the database at read time. -/
def crudCutoffExpr (deltaSecs : ℤ) : SqlTime :=
  .nowMinus deltaSecs

/-- The candidate set of the horizon computation: the contributions passing
the filter `created_at >= cutoff` (the `.filter(...)` clause of the
`array_agg` in `_get_first_amount_stmt`, and the `WHERE` clause of the
earliest-amount lateral subquery in `fetch_all_with_amount_delta`). -/
def horizonCandidates (cutoff : ℤ) (cs : List Contribution) : List Contribution :=
  cs.filter (fun c => cutoff ≤ c.created_at)

/-- The `amount_24` / `amount_48` / `amount_72` column of the view subquery:
`coalesce((array_agg(amount) FILTER (WHERE created_at >= cutoff)
OVER (PARTITION BY pool_id ORDER BY created_at RANGE BETWEEN UNBOUNDED
PRECEDING AND UNBOUNDED FOLLOWING))[1], 0)`.
The aggregation ranges over the whole partition ordered by `created_at`, so
element 1 of the array is the amount of the earliest contribution passing
the filter, and the `coalesce` turns an empty array (NULL at index 1)
into 0. -/
def earliestWithinAmount (cutoff : ℤ) (cs : List Contribution) : ℤ :=
  match minByCreated (horizonCandidates cutoff cs) with
  | some c => c.amount
  | none => 0

/-- An output row of `pool_statistic_view`: `Pool.id`, `Pool.token` and the
four derived volume columns. Each volume is an `Option` because the
subquery columns are NULL-extended by the outer join when a pool has no
contributions, and NULL propagates through the subtractions. -/
structure ViewRow where
  pool_id : Nat
  token : String
  volume : Option ℤ
  volume_24 : Option ℤ
  volume_48 : Option ℤ
  volume_72 : Option ℤ
  deriving DecidableEq, Repr

/-- Result of reading `pool_statistic_view`, given the three horizon cutoff
timestamps that stand in the compiled view text
(`_PoolStatisticViewQueryBuilder.build`).

Correspondence with the SQL of `build()`:
* the subquery has one row per `user_pool` row, but all its window columns
  (`latest_amount`, `oldest_amount`, `amount_24/48/72`) are constant across
  a `pool_id` partition, because `first_value` with `ORDER BY created_at`
  yields the partition-wide extremum on every row and the `array_agg`
  window is the whole partition; `SELECT DISTINCT ON (subq.pool_id) ...
  ORDER BY subq.pool_id, subq.created_at DESC` therefore keeps, per pool
  with at least one contribution, a single row carrying those
  partition-wide values — here computed directly per pool;
* a pool with no contributions gets a single NULL-extended row from
  `LEFT OUTER JOIN`; its `subq.pool_id` is NULL, and `DISTINCT ON` treats
  NULL keys as equal, so all NULL-extended rows form one group of which a
  single (arbitrary) representative survives — here the first
  zero-contribution pool in list order;
* row order (by `subq.pool_id`, NULLs last) is not modelled; the claims
  below are insensitive to it. -/
def evalViewCutoffs (c24 c48 c72 : ℤ) (pools : List PoolRec)
    (contribs : List Contribution) : List ViewRow :=
  let nonEmptyRows := pools.filterMap (fun p =>
    let cs := poolContribs contribs p.id
    match maxByCreated cs, minByCreated cs with
    | some latest, some oldest =>
      some { pool_id := p.id
             token := p.token
             volume := some (latest.amount - oldest.amount)
             volume_24 := some (latest.amount - earliestWithinAmount c24 cs)
             volume_48 := some (latest.amount - earliestWithinAmount c48 cs)
             volume_72 := some (latest.amount - earliestWithinAmount c72 cs) }
    | _, _ => none)
  let nullRow := match pools.filter (fun p => poolContribs contribs p.id = []) with
    | [] => []
    | p :: _ =>
      [{ pool_id := p.id, token := p.token, volume := none,
         volume_24 := none, volume_48 := none, volume_72 := none : ViewRow }]
  nonEmptyRows ++ nullRow

/-- A select from `pool_statistic_view` issued at `readTime`, against a view
whose SELECT was built (and its `datetime.now(UTC)` literals frozen) at
`buildNow`. The three cutoff expressions are evaluated at read time — but
they are literals, so read time cannot influence them. -/
def readViewAt (buildNow readTime : ℤ) (pools : List PoolRec)
    (contribs : List Contribution) : List ViewRow :=
  evalViewCutoffs
    ((viewCutoffExpr buildNow 24).evalAt readTime)
    ((viewCutoffExpr buildNow 48).evalAt readTime)
    ((viewCutoffExpr buildNow 72).evalAt readTime)
    pools contribs

/-- Sum of the contribution amounts of a list (the
`coalesce(sum(up.amount), 0)` aggregate of `fetch_all_with_amount_delta`:
an empty or NULL-extended group sums to 0). -/
def totalAmount (cs : List Contribution) : ℤ :=
  (cs.map (fun c => c.amount)).sum

/-- Result of `PoolCRUD.fetch_all_with_amount_delta` given the already
evaluated window cutoff `now() - delta`.

Correspondence with the SQL: the two lateral subqueries
(`ORDER BY created_at DESC LIMIT 1` over all of the pool's contributions,
and `ORDER BY created_at ASC LIMIT 1` over those with
`created_at >= cutoff`) each produce at most one row and are LEFT OUTER
JOINed `ON true`, so they contribute exactly one (possibly NULL) `amount`
value per pool; grouping by `(p.id, latest.amount, earliest.amount)` then
leaves exactly one group per pool row, with
`total_amount = coalesce(sum(up.amount), 0)` over the pool's contributions
and `amount_delta_per_day = coalesce(latest.amount - earliest.amount, 0)`,
which is 0 exactly when either lateral came up empty. -/
def fetchAllCutoff (cutoff : ℤ) (pools : List PoolRec)
    (contribs : List Contribution) : List (PoolRec × ℤ × ℤ) :=
  pools.map (fun p =>
    let cs := poolContribs contribs p.id
    let delta : ℤ :=
      match maxByCreated cs, minByCreated (horizonCandidates cutoff cs) with
      | some l, some e => l.amount - e.amount
      | _, _ => 0
    (p, totalAmount cs, delta))

/-- A call of `fetch_all_with_amount_delta(delta)` whose statement executes
at `readTime`: the cutoff is `now() - delta` with `now()` evaluated by the
database at read time. -/
def readFetchAt (readTime deltaSecs : ℤ) (pools : List PoolRec)
    (contribs : List Contribution) : List (PoolRec × ℤ × ℤ) :=
  fetchAllCutoff ((crudCutoffExpr deltaSecs).evalAt readTime) pools contribs

/-- Look up a `user_pool` row by primary key: `await db.get(UserPool, id)`.
Primary keys are unique in the database; on a list store this is the first
row with the given id. -/
def dbGet (db : List Contribution) (user_pool_id : Nat) : Option Contribution :=
  db.find? (fun r => r.id = user_pool_id)

/-- Python truthiness of the optional `amount` argument of
`UserPoolCRUD.update_user_pool`: `None` is falsy, and `Decimal` is falsy
exactly when it is zero (the source guards the write with `if amount:`). -/
def decimalArgTruthy : Option ℤ → Bool
  | none => false
  | some a => a ≠ 0

/-- `UserPoolCRUD.update_user_pool(user_pool_id, amount)` from
`app/crud/pool.py`: fetch the row by id; if absent return `None` without
touching the store; otherwise assign `amount` only under `if amount:`
(Python truthiness), commit, and return the (possibly unchanged) row.
The result is the returned value together with the store after the call. -/
def update_user_pool (db : List Contribution) (user_pool_id : Nat)
    (amount : Option ℤ) : Option Contribution × List Contribution :=
  match dbGet db user_pool_id with
  | none => (none, db)
  | some up =>
    let up2 :=
      match amount with
      | some a => if a = 0 then up else { up with amount := a }
      | none => up
    (some up2, db.map (fun r => if r.id = user_pool_id then up2 else r))

/-- Direction of a window-frame interval bound (`RangeType` in
`app/db/extensions/range_interval.py`). -/
inductive RangeType
  | preceding
  | following
  deriving DecidableEq, Repr

/-- The integer value carried by a `RangeInterval`: the constructor stores
`delta.total_seconds()` for FOLLOWING and `-delta.total_seconds()` for
PRECEDING (the sign encodes the direction). -/
def rangeIntervalValue (deltaSecs : ℤ) : RangeType → ℤ
  | .following => deltaSecs
  | .preceding => -deltaSecs

/-- A raw window-frame bound as passed to `Over._interpret_range`: either a
plain integer row offset or a `RangeInterval` (an `int` subclass whose
value is the signed second count). `None` bounds are carried by `Option`. -/
inductive RawBound
  | int (n : ℤ)
  | interval (secs : ℤ)
  deriving DecidableEq, Repr

/-- An output position of the patched `_interpret_range`: either whatever
the original SQLAlchemy method produced for that position, or a
`RangeInterval` passed through untouched. `α` abstracts the original
method's output type (its sentinels and converted offsets). -/
inductive OutBound (α : Type)
  | fromOrig (o : α)
  | interval (secs : ℤ)
  deriving DecidableEq, Repr

/-- The Python expression `customer_bound or sa_bound` closing
`_interpret_range`: `customer_bound` is `None` or a `RangeInterval`, and a
`RangeInterval` is an `int` subclass, so it is falsy exactly when its value
is 0; in that case `or` yields the second operand. -/
def pyOrBound {α : Type} (customer : Option ℤ) (sa : α) : OutBound α :=
  match customer with
  | some s => if s = 0 then .fromOrig sa else .interval s
  | none => .fromOrig sa

/-- Splitting step of the patched `_interpret_range`:
`(None, range_[i]) if isinstance(range_[i], RangeInterval) else
(range_[i], None)` — an interval bound is masked to `None` before the
original method runs, and remembered on the side. -/
def splitBound : Option RawBound → Option RawBound × Option ℤ
  | some (.interval s) => (none, some s)
  | b => (b, none)

/-- The patched `Over._interpret_range` from
`app/db/extensions/range_interval.py`, with the original SQLAlchemy method
abstracted as `orig` (it is third-party code): interval bounds are masked
to `None` for the `orig` call, and each output position is
`customer_bound or sa_bound` under Python truthiness. -/
def interpretRange {α : Type}
    (orig : Option RawBound × Option RawBound → α × α)
    (range2 : Option RawBound × Option RawBound) : OutBound α × OutBound α :=
  let lo := splitBound range2.1
  let hi := splitBound range2.2
  let saOut := orig (lo.1, hi.1)
  (pyOrBound lo.2 saOut.1, pyOrBound hi.2 saOut.2)

theorem minByCreated_cons (c : Contribution) (cs : List Contribution) :
    minByCreated (c :: cs) = some (match minByCreated cs with
      | none => c
      | some m => if m.created_at < c.created_at then m else c) := rfl

theorem maxByCreated_cons (c : Contribution) (cs : List Contribution) :
    maxByCreated (c :: cs) = some (match maxByCreated cs with
      | none => c
      | some m => if m.created_at > c.created_at then m else c) := rfl

theorem minByCreated_eq_none {l : List Contribution} :
    minByCreated l = none ↔ l = [] := by
  cases l <;> simp [minByCreated]

theorem maxByCreated_eq_none {l : List Contribution} :
    maxByCreated l = none ↔ l = [] := by
  cases l <;> simp [maxByCreated]

theorem minByCreated_mem : ∀ {l : List Contribution} {m : Contribution},
    minByCreated l = some m → m ∈ l := by
  intro l
  induction l with
  | nil => intro m h; simp [minByCreated] at h
  | cons c cs ih =>
    intro m h
    rw [minByCreated_cons] at h
    injection h with h
    cases hm : minByCreated cs with
    | none => rw [hm] at h; subst h; exact List.mem_cons_self c cs
    | some m2 =>
      rw [hm] at h
      dsimp only at h
      by_cases hlt : m2.created_at < c.created_at
      · rw [if_pos hlt] at h; subst h
        exact List.mem_cons_of_mem _ (ih hm)
      · rw [if_neg hlt] at h; subst h
        exact List.mem_cons_self c cs

theorem maxByCreated_mem : ∀ {l : List Contribution} {m : Contribution},
    maxByCreated l = some m → m ∈ l := by
  intro l
  induction l with
  | nil => intro m h; simp [maxByCreated] at h
  | cons c cs ih =>
    intro m h
    rw [maxByCreated_cons] at h
    injection h with h
    cases hm : maxByCreated cs with
    | none => rw [hm] at h; subst h; exact List.mem_cons_self c cs
    | some m2 =>
      rw [hm] at h
      dsimp only at h
      by_cases hlt : m2.created_at > c.created_at
      · rw [if_pos hlt] at h; subst h
        exact List.mem_cons_of_mem _ (ih hm)
      · rw [if_neg hlt] at h; subst h
        exact List.mem_cons_self c cs

theorem minByCreated_le : ∀ {l : List Contribution} {m : Contribution},
    minByCreated l = some m → ∀ x ∈ l, m.created_at ≤ x.created_at := by
  intro l
  induction l with
  | nil => intro m h; simp [minByCreated] at h
  | cons c cs ih =>
    intro m h x hx
    rw [minByCreated_cons] at h
    injection h with h
    cases hm : minByCreated cs with
    | none =>
      rw [hm] at h; subst h
      rcases List.mem_cons.mp hx with hx | hx
      · exact le_of_eq (by rw [hx])
      · exact absurd (minByCreated_eq_none.mp hm ▸ hx) (List.not_mem_nil x)
    | some m2 =>
      rw [hm] at h
      dsimp only at h
      by_cases hlt : m2.created_at < c.created_at
      · rw [if_pos hlt] at h; subst h
        rcases List.mem_cons.mp hx with hx | hx
        · exact hx ▸ le_of_lt hlt
        · exact ih hm x hx
      · rw [if_neg hlt] at h; subst h
        rcases List.mem_cons.mp hx with hx | hx
        · exact le_of_eq (by rw [hx])
        · exact le_trans (le_of_not_lt hlt) (ih hm x hx)

theorem maxByCreated_ge : ∀ {l : List Contribution} {m : Contribution},
    maxByCreated l = some m → ∀ x ∈ l, x.created_at ≤ m.created_at := by
  intro l
  induction l with
  | nil => intro m h; simp [maxByCreated] at h
  | cons c cs ih =>
    intro m h x hx
    rw [maxByCreated_cons] at h
    injection h with h
    cases hm : maxByCreated cs with
    | none =>
      rw [hm] at h; subst h
      rcases List.mem_cons.mp hx with hx | hx
      · exact le_of_eq (by rw [hx])
      · exact absurd (maxByCreated_eq_none.mp hm ▸ hx) (List.not_mem_nil x)
    | some m2 =>
      rw [hm] at h
      dsimp only at h
      by_cases hlt : m2.created_at > c.created_at
      · rw [if_pos hlt] at h; subst h
        rcases List.mem_cons.mp hx with hx | hx
        · exact hx ▸ le_of_lt hlt
        · exact ih hm x hx
      · rw [if_neg hlt] at h; subst h
        rcases List.mem_cons.mp hx with hx | hx
        · exact le_of_eq (by rw [hx])
        · exact le_trans (ih hm x hx) (le_of_not_lt hlt)

theorem horizonCandidates_spec {cutoff : ℤ} {cs : List Contribution}
    {x : Contribution} :
    x ∈ horizonCandidates cutoff cs ↔ x ∈ cs ∧ cutoff ≤ x.created_at := by
  simp [horizonCandidates, List.mem_filter]

theorem horizonCandidates_mono {c1 c2 : ℤ} (h : c2 ≤ c1)
    {cs : List Contribution} {x : Contribution}
    (hx : x ∈ horizonCandidates c1 cs) : x ∈ horizonCandidates c2 cs := by
  rcases horizonCandidates_spec.mp hx with ⟨hmem, hle⟩
  exact horizonCandidates_spec.mpr ⟨hmem, le_trans h hle⟩

/-- C3: the 24/48/72-hour horizon cutoffs of `pool_statistic_view` are
constants: `datetime.now(UTC)` is evaluated when the view's SELECT is built
at module import and the resulting timestamps are compiled as literals into
the CREATE VIEW text (`literal_binds`), so a read of the view issued at any
time evaluates the cutoff `withinHours` to `buildNow - withinHours·3600`,
and the view's result depends only on the stored pools and contributions,
never on the time the read is issued. -/
theorem poolStatisticView_cutoffs_frozen_at_build
    (buildNow r1 r2 : ℤ) (pools : List PoolRec) (contribs : List Contribution) :
    readViewAt buildNow r1 pools contribs = readViewAt buildNow r2 pools contribs ∧
    ∀ withinHours : Nat,
      (viewCutoffExpr buildNow withinHours).evalAt r1 =
        buildNow - withinHours * 3600 :=
  ⟨rfl, fun _ => rfl⟩

/-- C5: the worked scenario. A pool whose contributions are, as
(amount, hours-before-now) pairs, (100, 80), (150, 50), (200, 20), (300, 1)
has latest amount 300, and the view row built at `now = 0` reads
volume = 200, volume_24 = 100, volume_48 = 100, volume_72 = 150
(the hour-50 row is outside the 48-hour horizon but inside the 72-hour
one). -/
theorem poolStatisticView_btc_scenario :
    (maxByCreated
        [⟨1, 1, 1, 100, -288000⟩, ⟨2, 1, 1, 150, -180000⟩,
         ⟨3, 1, 1, 200, -72000⟩, ⟨4, 1, 1, 300, -3600⟩]).map
        Contribution.amount = some 300 ∧
    readViewAt 0 0 [⟨1, "BTC", PoolRiskStatus.low⟩]
        [⟨1, 1, 1, 100, -288000⟩, ⟨2, 1, 1, 150, -180000⟩,
         ⟨3, 1, 1, 200, -72000⟩, ⟨4, 1, 1, 300, -3600⟩] =
      [⟨1, "BTC", some 200, some 100, some 100, some 150⟩] := by
  constructor
  · rfl
  · decide

/-- C1 (failing input): a pool with zero contributions is NULL-extended by
the view's LEFT OUTER JOIN, so the four volume columns of its row are all
SQL NULL — not the numeric 0 the claim states: `latest_amount -
oldest_amount` is `NULL - NULL`, and the `coalesce(..., 0)` of the horizon
columns sits inside the subquery, which produces no row at all for such a
pool. -/
theorem poolStatisticView_zero_contribution_null_volumes :
    readViewAt 0 0 [⟨1, "ETH", PoolRiskStatus.low⟩] [] =
      [⟨1, "ETH", none, none, none, none⟩] ∧
    (⟨1, "ETH", none, none, none, none⟩ : ViewRow).volume ≠ some 0 := by
  exact ⟨rfl, by decide⟩

/-- C2 (failing input): the view deduplicates with
`DISTINCT ON (subquery.pool_id)`, and for pools with zero contributions the
NULL-extended `subquery.pool_id` is NULL; DISTINCT treats NULL keys as
equal, so two zero-contribution pools collapse into a single row and one of
the pools is absent from the result. -/
theorem poolStatisticView_empty_pools_collapse :
    readViewAt 0 0
        [⟨1, "BTC", PoolRiskStatus.low⟩, ⟨2, "ETH", PoolRiskStatus.high⟩] [] =
      [⟨1, "BTC", none, none, none, none⟩] ∧
    ∀ row ∈ readViewAt 0 0
        [⟨1, "BTC", PoolRiskStatus.low⟩, ⟨2, "ETH", PoolRiskStatus.high⟩] [],
      row.pool_id ≠ 2 := by
  exact ⟨rfl, by decide⟩

/-- C8 (counterexample): `fetch_all_with_amount_delta` anchors its window at
`now()` evaluated when the statement runs, so the same call on the same
stored data returns different results at two different wall-clock times: a
contribution at time 0 lies inside the one-hour window of a read at 3500
but outside that of a read at 3701, moving the earliest-in-window row and
so the delta. -/
theorem fetchAll_wall_clock_dependent :
    readFetchAt 3500 3600 [⟨1, "BTC", PoolRiskStatus.low⟩]
        [⟨1, 1, 1, 100, 0⟩, ⟨2, 1, 1, 200, 100⟩] ≠
      readFetchAt 3701 3600 [⟨1, "BTC", PoolRiskStatus.low⟩]
        [⟨1, 1, 1, 100, 0⟩, ⟨2, 1, 1, 200, 100⟩] := by
  decide

/-- C8 (amended): two selects from `pool_statistic_view` over the same
stored data are identical even at different wall-clock times (its cutoffs
are frozen literals), and two `fetch_all_with_amount_delta` calls with the
same delta are identical when their statements evaluate `now()` to the same
instant — but, per the counterexample, not in general across different
wall-clock times. -/
theorem statistics_read_idempotence_amended
    (buildNow r1 r2 rA rB deltaSecs : ℤ)
    (pools : List PoolRec) (contribs : List Contribution) :
    readViewAt buildNow r1 pools contribs = readViewAt buildNow r2 pools contribs ∧
    (rA = rB →
      readFetchAt rA deltaSecs pools contribs =
        readFetchAt rB deltaSecs pools contribs) :=
  ⟨rfl, fun h => by rw [h]⟩

/-- Witness for the amended C8 statement at a concrete store and concrete
read times. -/
theorem statistics_read_idempotence_amended_witness :
    readViewAt 0 1000 [⟨1, "BTC", PoolRiskStatus.low⟩] [⟨1, 1, 1, 100, 0⟩] =
      readViewAt 0 99999 [⟨1, "BTC", PoolRiskStatus.low⟩] [⟨1, 1, 1, 100, 0⟩] ∧
    readFetchAt 7 3600 [⟨1, "BTC", PoolRiskStatus.low⟩] [⟨1, 1, 1, 100, 0⟩] =
      readFetchAt 7 3600 [⟨1, "BTC", PoolRiskStatus.low⟩] [⟨1, 1, 1, 100, 0⟩] :=
  ⟨(statistics_read_idempotence_amended 0 1000 99999 7 7 3600 _ _).1,
   (statistics_read_idempotence_amended 0 1000 99999 7 7 3600
      [⟨1, "BTC", PoolRiskStatus.low⟩] [⟨1, 1, 1, 100, 0⟩]).2 rfl⟩

/-- C6: the horizon filter `created_at >= datetime.now(UTC) -
timedelta(hours=H)` of `_get_first_amount_stmt` is inclusive at the lower
boundary: for each horizon H in {24, 48, 72}, a contribution created
exactly H hours before the (frozen) now is in the candidate set of the
horizon-H earliest-amount computation, and one created H hours plus one
second before now is not. -/
theorem horizon_boundary_inclusive
    (buildNow readTime : ℤ) (cs : List Contribution)
    (a24 b24 a48 b48 a72 b72 : Contribution)
    (ha24m : a24 ∈ cs) (ha24t : a24.created_at = buildNow - 24 * 3600)
    (_hb24m : b24 ∈ cs) (hb24t : b24.created_at = buildNow - (24 * 3600 + 1))
    (ha48m : a48 ∈ cs) (ha48t : a48.created_at = buildNow - 48 * 3600)
    (_hb48m : b48 ∈ cs) (hb48t : b48.created_at = buildNow - (48 * 3600 + 1))
    (ha72m : a72 ∈ cs) (ha72t : a72.created_at = buildNow - 72 * 3600)
    (_hb72m : b72 ∈ cs) (hb72t : b72.created_at = buildNow - (72 * 3600 + 1)) :
    a24 ∈ horizonCandidates ((viewCutoffExpr buildNow 24).evalAt readTime) cs ∧
    b24 ∉ horizonCandidates ((viewCutoffExpr buildNow 24).evalAt readTime) cs ∧
    a48 ∈ horizonCandidates ((viewCutoffExpr buildNow 48).evalAt readTime) cs ∧
    b48 ∉ horizonCandidates ((viewCutoffExpr buildNow 48).evalAt readTime) cs ∧
    a72 ∈ horizonCandidates ((viewCutoffExpr buildNow 72).evalAt readTime) cs ∧
    b72 ∉ horizonCandidates ((viewCutoffExpr buildNow 72).evalAt readTime) cs := by
  refine ⟨?_, ?_, ?_, ?_, ?_, ?_⟩
  · exact horizonCandidates_spec.mpr ⟨ha24m, by rw [ha24t]; simp [viewCutoffExpr, SqlTime.evalAt]⟩
  · intro hmem
    have := (horizonCandidates_spec.mp hmem).2
    rw [hb24t] at this
    simp only [viewCutoffExpr, SqlTime.evalAt] at this
    omega
  · exact horizonCandidates_spec.mpr ⟨ha48m, by rw [ha48t]; simp [viewCutoffExpr, SqlTime.evalAt]⟩
  · intro hmem
    have := (horizonCandidates_spec.mp hmem).2
    rw [hb48t] at this
    simp only [viewCutoffExpr, SqlTime.evalAt] at this
    omega
  · exact horizonCandidates_spec.mpr ⟨ha72m, by rw [ha72t]; simp [viewCutoffExpr, SqlTime.evalAt]⟩
  · intro hmem
    have := (horizonCandidates_spec.mp hmem).2
    rw [hb72t] at this
    simp only [viewCutoffExpr, SqlTime.evalAt] at this
    omega

/-- Witness for C6 at a concrete store: six contributions sitting exactly
on and exactly one second past each horizon boundary, with the view built
at time 0. -/
theorem horizon_boundary_inclusive_witness :
    (⟨1, 1, 1, 10, -86400⟩ : Contribution) ∈
      horizonCandidates ((viewCutoffExpr 0 24).evalAt 5)
        [⟨1, 1, 1, 10, -86400⟩, ⟨2, 1, 1, 20, -86401⟩, ⟨3, 1, 1, 30, -172800⟩,
         ⟨4, 1, 1, 40, -172801⟩, ⟨5, 1, 1, 50, -259200⟩, ⟨6, 1, 1, 60, -259201⟩] ∧
    (⟨2, 1, 1, 20, -86401⟩ : Contribution) ∉
      horizonCandidates ((viewCutoffExpr 0 24).evalAt 5)
        [⟨1, 1, 1, 10, -86400⟩, ⟨2, 1, 1, 20, -86401⟩, ⟨3, 1, 1, 30, -172800⟩,
         ⟨4, 1, 1, 40, -172801⟩, ⟨5, 1, 1, 50, -259200⟩, ⟨6, 1, 1, 60, -259201⟩] ∧
    (⟨3, 1, 1, 30, -172800⟩ : Contribution) ∈
      horizonCandidates ((viewCutoffExpr 0 48).evalAt 5)
        [⟨1, 1, 1, 10, -86400⟩, ⟨2, 1, 1, 20, -86401⟩, ⟨3, 1, 1, 30, -172800⟩,
         ⟨4, 1, 1, 40, -172801⟩, ⟨5, 1, 1, 50, -259200⟩, ⟨6, 1, 1, 60, -259201⟩] ∧
    (⟨4, 1, 1, 40, -172801⟩ : Contribution) ∉
      horizonCandidates ((viewCutoffExpr 0 48).evalAt 5)
        [⟨1, 1, 1, 10, -86400⟩, ⟨2, 1, 1, 20, -86401⟩, ⟨3, 1, 1, 30, -172800⟩,
         ⟨4, 1, 1, 40, -172801⟩, ⟨5, 1, 1, 50, -259200⟩, ⟨6, 1, 1, 60, -259201⟩] ∧
    (⟨5, 1, 1, 50, -259200⟩ : Contribution) ∈
      horizonCandidates ((viewCutoffExpr 0 72).evalAt 5)
        [⟨1, 1, 1, 10, -86400⟩, ⟨2, 1, 1, 20, -86401⟩, ⟨3, 1, 1, 30, -172800⟩,
         ⟨4, 1, 1, 40, -172801⟩, ⟨5, 1, 1, 50, -259200⟩, ⟨6, 1, 1, 60, -259201⟩] ∧
    (⟨6, 1, 1, 60, -259201⟩ : Contribution) ∉
      horizonCandidates ((viewCutoffExpr 0 72).evalAt 5)
        [⟨1, 1, 1, 10, -86400⟩, ⟨2, 1, 1, 20, -86401⟩, ⟨3, 1, 1, 30, -172800⟩,
         ⟨4, 1, 1, 40, -172801⟩, ⟨5, 1, 1, 50, -259200⟩, ⟨6, 1, 1, 60, -259201⟩] := by
  have h := horizon_boundary_inclusive 0 5
    [⟨1, 1, 1, 10, -86400⟩, ⟨2, 1, 1, 20, -86401⟩, ⟨3, 1, 1, 30, -172800⟩,
     ⟨4, 1, 1, 40, -172801⟩, ⟨5, 1, 1, 50, -259200⟩, ⟨6, 1, 1, 60, -259201⟩]
    ⟨1, 1, 1, 10, -86400⟩ ⟨2, 1, 1, 20, -86401⟩ ⟨3, 1, 1, 30, -172800⟩
    ⟨4, 1, 1, 40, -172801⟩ ⟨5, 1, 1, 50, -259200⟩ ⟨6, 1, 1, 60, -259201⟩
    (by decide) (by decide) (by decide) (by decide) (by decide) (by decide)
    (by decide) (by decide) (by decide) (by decide) (by decide) (by decide)
  exact ⟨h.1, h.2.1, h.2.2.1, h.2.2.2.1, h.2.2.2.2.1, h.2.2.2.2.2⟩

/-- C9: the horizon candidate sets are nested — a longer horizon has a
lower cutoff, so its candidate set contains each shorter horizon's — and
therefore, whenever all three horizon computations of a pool select a
contribution, the 72-hour selection's timestamp is at most the 48-hour
selection's, which is at most the 24-hour selection's. -/
theorem horizon_earliest_nested
    (buildNow readTime : ℤ) (cs : List Contribution) (e24 e48 e72 : Contribution)
    (h24 : minByCreated
        (horizonCandidates ((viewCutoffExpr buildNow 24).evalAt readTime) cs) =
        some e24)
    (h48 : minByCreated
        (horizonCandidates ((viewCutoffExpr buildNow 48).evalAt readTime) cs) =
        some e48)
    (h72 : minByCreated
        (horizonCandidates ((viewCutoffExpr buildNow 72).evalAt readTime) cs) =
        some e72) :
    e72.created_at ≤ e48.created_at ∧ e48.created_at ≤ e24.created_at ∧
    (∀ c ∈ horizonCandidates ((viewCutoffExpr buildNow 24).evalAt readTime) cs,
      c ∈ horizonCandidates ((viewCutoffExpr buildNow 48).evalAt readTime) cs) ∧
    (∀ c ∈ horizonCandidates ((viewCutoffExpr buildNow 48).evalAt readTime) cs,
      c ∈ horizonCandidates ((viewCutoffExpr buildNow 72).evalAt readTime) cs) := by
  have hc4824 : ((viewCutoffExpr buildNow 48).evalAt readTime) ≤
      ((viewCutoffExpr buildNow 24).evalAt readTime) := by
    simp only [viewCutoffExpr, SqlTime.evalAt]; omega
  have hc7248 : ((viewCutoffExpr buildNow 72).evalAt readTime) ≤
      ((viewCutoffExpr buildNow 48).evalAt readTime) := by
    simp only [viewCutoffExpr, SqlTime.evalAt]; omega
  have hm24 := minByCreated_mem h24
  have hm48 := minByCreated_mem h48
  refine ⟨?_, ?_, fun c hc => horizonCandidates_mono hc4824 hc,
    fun c hc => horizonCandidates_mono hc7248 hc⟩
  · exact minByCreated_le h72 e48 (horizonCandidates_mono hc7248 hm48)
  · exact minByCreated_le h48 e24 (horizonCandidates_mono hc4824 hm24)

/-- Witness for C9 at a concrete store: contributions 10, 30 and 60 hours
old, with the view built at time 0; the 24/48/72-hour horizon selections
are the 10-, 30- and 60-hour rows respectively, and their timestamps are
ordered as the theorem states. -/
theorem horizon_earliest_nested_witness :
    (⟨3, 1, 1, 30, -216000⟩ : Contribution).created_at ≤
      (⟨2, 1, 1, 20, -108000⟩ : Contribution).created_at ∧
    (⟨2, 1, 1, 20, -108000⟩ : Contribution).created_at ≤
      (⟨1, 1, 1, 10, -36000⟩ : Contribution).created_at := by
  have h := horizon_earliest_nested 0 5
    [⟨1, 1, 1, 10, -36000⟩, ⟨2, 1, 1, 20, -108000⟩, ⟨3, 1, 1, 30, -216000⟩]
    ⟨1, 1, 1, 10, -36000⟩ ⟨2, 1, 1, 20, -108000⟩ ⟨3, 1, 1, 30, -216000⟩
    (by decide) (by decide) (by decide)
  exact ⟨h.1, h.2.1⟩

/-- C7 (counterexample): the claim fails for a `RangeInterval` whose carried
value is 0 (a zero-duration interval, e.g. `RangeInterval(timedelta(0))`,
whose value `rangeIntervalValue 0 .preceding = 0`). `RangeInterval` is an
`int` subclass, so the closing `customer_lower or sa_lower` of the patched
`_interpret_range` finds it falsy and yields the original method's output
for the masked `None` bound instead of the interval. Here the original
method is instantiated with the identity (any original that maps `None` to
something other than the interval — as SQLAlchemy's does, producing its
unbounded sentinel — exhibits the failure). -/
theorem interpretRange_zero_interval_not_preserved :
    (interpretRange (fun p => p)
        (some (RawBound.interval (rangeIntervalValue 0 RangeType.preceding)),
         (none : Option RawBound))).1 ≠
      OutBound.interval (rangeIntervalValue 0 RangeType.preceding) := by
  decide

/-- C7 (amended): for every range pair passed to the patched
`Over._interpret_range`, a bound that is a `RangeInterval` with nonzero
underlying value is returned unchanged in its output position (never routed
through the generic interpretation); a zero-valued `RangeInterval` is falsy
in Python's `or` and is replaced by the original method's interpretation of
the masked pair; and a bound that is not a `RangeInterval` is interpreted
exactly as the original SQLAlchemy method interprets the pair in which any
`RangeInterval` in the other slot has been masked to `None`. -/
theorem interpretRange_amended {α : Type}
    (orig : Option RawBound × Option RawBound → α × α)
    (range2 : Option RawBound × Option RawBound) :
    (∀ s : ℤ, s ≠ 0 → range2.1 = some (RawBound.interval s) →
      (interpretRange orig range2).1 = OutBound.interval s) ∧
    (∀ s : ℤ, s ≠ 0 → range2.2 = some (RawBound.interval s) →
      (interpretRange orig range2).2 = OutBound.interval s) ∧
    (range2.1 = some (RawBound.interval 0) →
      (interpretRange orig range2).1 =
        OutBound.fromOrig (orig (none, (splitBound range2.2).1)).1) ∧
    (range2.2 = some (RawBound.interval 0) →
      (interpretRange orig range2).2 =
        OutBound.fromOrig (orig ((splitBound range2.1).1, none)).2) ∧
    ((∀ s : ℤ, range2.1 ≠ some (RawBound.interval s)) →
      (interpretRange orig range2).1 =
        OutBound.fromOrig (orig (range2.1, (splitBound range2.2).1)).1) ∧
    ((∀ s : ℤ, range2.2 ≠ some (RawBound.interval s)) →
      (interpretRange orig range2).2 =
        OutBound.fromOrig (orig ((splitBound range2.1).1, range2.2)).2) := by
  obtain ⟨b1, b2⟩ := range2
  refine ⟨?_, ?_, ?_, ?_, ?_, ?_⟩
  · intro s hs hb
    subst hb
    simp [interpretRange, splitBound, pyOrBound, hs]
  · intro s hs hb
    subst hb
    cases b1 <;> simp [interpretRange, splitBound, pyOrBound, hs]
  · intro hb
    subst hb
    simp [interpretRange, splitBound, pyOrBound]
  · intro hb
    subst hb
    cases b1 <;> simp [interpretRange, splitBound, pyOrBound]
  · intro hni
    have hsplit : splitBound b1 = (b1, none) := by
      cases b1 with
      | none => rfl
      | some b =>
        cases b with
        | int n => rfl
        | interval s => exact absurd rfl (hni s)
    simp [interpretRange, hsplit, pyOrBound]
  · intro hni
    have hsplit : splitBound b2 = (b2, none) := by
      cases b2 with
      | none => rfl
      | some b =>
        cases b with
        | int n => rfl
        | interval s => exact absurd rfl (hni s)
    simp [interpretRange, hsplit, pyOrBound]

/-- Witness for the amended C7 statement: a 24-hour PRECEDING interval
(value −86400) in the lower slot and a plain integer offset in the upper
slot, with a concrete original method. The interval is preserved and the
integer bound goes through the original method. -/
theorem interpretRange_amended_witness :
    (interpretRange (fun p => (p.1, p.2))
        (some (RawBound.interval (rangeIntervalValue 86400 RangeType.preceding)),
         some (RawBound.int 3))).1 =
      OutBound.interval (rangeIntervalValue 86400 RangeType.preceding) ∧
    (interpretRange (fun p => (p.1, p.2))
        (some (RawBound.interval (rangeIntervalValue 86400 RangeType.preceding)),
         some (RawBound.int 3))).2 =
      OutBound.fromOrig (some (RawBound.int 3)) := by
  have h := interpretRange_amended (fun p : Option RawBound × Option RawBound => (p.1, p.2))
    (some (RawBound.interval (rangeIntervalValue 86400 RangeType.preceding)),
     some (RawBound.int 3))
  exact ⟨h.1 (rangeIntervalValue 86400 RangeType.preceding) (by decide) rfl,
    h.2.2.2.2.2 (by intro s hs; simp at hs)⟩

theorem poolContribs_subset {contribs : List Contribution} {pid : Nat}
    {x : Contribution} (hx : x ∈ poolContribs contribs pid) : x ∈ contribs :=
  (List.mem_filter.mp hx).1

/-- Spec-side notion (from the claim's words, for the C4 refinement): `c` is
a most-recent contribution of `cs` — a member whose timestamp is at least
every other member's. -/
def IsMostRecent (cs : List Contribution) (c : Contribution) : Prop :=
  c ∈ cs ∧ ∀ d ∈ cs, d.created_at ≤ c.created_at

/-- Spec-side notion (from the claim's words, for the C4 refinement): `c` is
an earliest contribution of `cs` created within the closed interval
`[now - delta, now]`. -/
def IsEarliestInWindow (now deltaSecs : ℤ) (cs : List Contribution)
    (c : Contribution) : Prop :=
  c ∈ cs ∧ now - deltaSecs ≤ c.created_at ∧ c.created_at ≤ now ∧
    ∀ d ∈ cs, now - deltaSecs ≤ d.created_at → d.created_at ≤ now →
      c.created_at ≤ d.created_at

theorem map_filter_by_id {β : Type} (pools : List PoolRec)
    (f : PoolRec → PoolRec × β) (hf : ∀ q, (f q).1 = q)
    (p : PoolRec) (hp : p ∈ pools) (hnodup : (pools.map PoolRec.id).Nodup) :
    (pools.map f).filter (fun t => (t.1).id = p.id) = [f p] := by
  induction pools with
  | nil => cases hp
  | cons q qs ih =>
    simp only [List.map_cons, List.nodup_cons] at hnodup
    obtain ⟨hqid, hnd⟩ := hnodup
    rcases List.mem_cons.mp hp with hpq | hpqs
    · subst hpq
      rw [List.map_cons, List.filter_cons, if_pos (by simp [hf])]
      have htail : (qs.map f).filter (fun t => (t.1).id = p.id) = [] := by
        rw [List.filter_eq_nil_iff]
        intro t ht
        obtain ⟨x, hxmem, hxeq⟩ := List.mem_map.mp ht
        subst hxeq
        simp only [hf, decide_eq_true_eq]
        intro hxid
        exact hqid (hxid ▸ List.mem_map.mpr ⟨x, hxmem, rfl⟩)
      rw [htail]
    · have hqp : ¬((f q).1.id = p.id) := by
        rw [hf]
        intro h
        exact hqid (h ▸ List.mem_map.mpr ⟨p, hpqs, rfl⟩)
      rw [List.map_cons, List.filter_cons, if_neg (by simpa using hqp)]
      exact ih hpqs hnd

/-- C4: for every pool, `fetch_all_with_amount_delta(delta)` returns exactly
one tuple `(pool, total_amount, amount_delta_per_day)`; `total_amount` is
the sum of all contribution amounts ever made to the pool (0 when there are
none), and `amount_delta_per_day` is the amount of a most-recent
contribution minus the amount of an earliest contribution created within
`[now - delta, now]`, and 0 when no contribution lies in that window (in
particular a zero-contribution pool still appears, with total 0 and
delta 0). Hypotheses: pool ids are unique (primary keys), and every stored
`created_at` is at most the read-time `now` (creation timestamps precede
reads), which makes the source's one-sided filter
`created_at >= now() - delta` agree with the claim's closed window. -/
theorem fetchAll_per_pool_spec
    (now deltaSecs : ℤ) (pools : List PoolRec) (contribs : List Contribution)
    (p : PoolRec) (hp : p ∈ pools)
    (hnodup : (pools.map PoolRec.id).Nodup)
    (hpast : ∀ c ∈ contribs, c.created_at ≤ now) :
    ∃ D : ℤ,
      (readFetchAt now deltaSecs pools contribs).filter
          (fun t => (t.1).id = p.id) =
        [(p, totalAmount (poolContribs contribs p.id), D)] ∧
      ((∃ c ∈ poolContribs contribs p.id,
          now - deltaSecs ≤ c.created_at ∧ c.created_at ≤ now) →
        ∃ l e, IsMostRecent (poolContribs contribs p.id) l ∧
          IsEarliestInWindow now deltaSecs (poolContribs contribs p.id) e ∧
          D = l.amount - e.amount) ∧
      ((∀ c ∈ poolContribs contribs p.id,
          ¬(now - deltaSecs ≤ c.created_at ∧ c.created_at ≤ now)) → D = 0) := by
  refine ⟨match maxByCreated (poolContribs contribs p.id),
      minByCreated (horizonCandidates (now - deltaSecs)
        (poolContribs contribs p.id)) with
    | some l, some e => l.amount - e.amount
    | _, _ => 0, ?_, ?_, ?_⟩
  · exact map_filter_by_id pools _ (fun q => rfl) p hp hnodup
  · rintro ⟨c, hc, hlo, hhi⟩
    have hcand : c ∈ horizonCandidates (now - deltaSecs)
        (poolContribs contribs p.id) :=
      horizonCandidates_spec.mpr ⟨hc, hlo⟩
    obtain ⟨e, he⟩ : ∃ e, minByCreated (horizonCandidates (now - deltaSecs)
        (poolContribs contribs p.id)) = some e := by
      cases hmin : minByCreated (horizonCandidates (now - deltaSecs)
          (poolContribs contribs p.id)) with
      | none =>
        rw [minByCreated_eq_none] at hmin
        rw [hmin] at hcand
        cases hcand
      | some e => exact ⟨e, rfl⟩
    obtain ⟨l, hl⟩ : ∃ l, maxByCreated (poolContribs contribs p.id) = some l := by
      cases hmax : maxByCreated (poolContribs contribs p.id) with
      | none =>
        rw [maxByCreated_eq_none] at hmax
        rw [hmax] at hc
        cases hc
      | some l => exact ⟨l, rfl⟩
    refine ⟨l, e, ⟨maxByCreated_mem hl, maxByCreated_ge hl⟩, ?_, by rw [hl, he]⟩
    have hemem := minByCreated_mem he
    rcases horizonCandidates_spec.mp hemem with ⟨hecs, helo⟩
    refine ⟨hecs, helo, hpast e (poolContribs_subset hecs), ?_⟩
    intro d hd hdlo _
    exact minByCreated_le he d (horizonCandidates_spec.mpr ⟨hd, hdlo⟩)
  · intro hno
    have hcand : horizonCandidates (now - deltaSecs)
        (poolContribs contribs p.id) = [] := by
      by_contra hne
      obtain ⟨x, hx⟩ := List.exists_mem_of_ne_nil _ hne
      rcases horizonCandidates_spec.mp hx with ⟨hxcs, hxlo⟩
      exact hno x hxcs ⟨hxlo, hpast x (poolContribs_subset hxcs)⟩
    rw [hcand]
    cases maxByCreated (poolContribs contribs p.id) <;> rfl

/-- Witness for C4 at a concrete store: one pool with one contribution of
amount 100 made 10 seconds before a read with a 100-second delta. -/
theorem fetchAll_per_pool_spec_witness :
    ∃ D : ℤ,
      (readFetchAt 0 100 [⟨1, "BTC", PoolRiskStatus.low⟩]
          [⟨1, 1, 1, 100, -10⟩]).filter
          (fun t => (t.1).id = (⟨1, "BTC", PoolRiskStatus.low⟩ : PoolRec).id) =
        [(⟨1, "BTC", PoolRiskStatus.low⟩,
          totalAmount (poolContribs [⟨1, 1, 1, 100, -10⟩]
            (⟨1, "BTC", PoolRiskStatus.low⟩ : PoolRec).id), D)] ∧
      ((∃ c ∈ poolContribs [⟨1, 1, 1, 100, -10⟩]
            (⟨1, "BTC", PoolRiskStatus.low⟩ : PoolRec).id,
          (0 : ℤ) - 100 ≤ c.created_at ∧ c.created_at ≤ 0) →
        ∃ l e, IsMostRecent (poolContribs [⟨1, 1, 1, 100, -10⟩]
            (⟨1, "BTC", PoolRiskStatus.low⟩ : PoolRec).id) l ∧
          IsEarliestInWindow 0 100 (poolContribs [⟨1, 1, 1, 100, -10⟩]
            (⟨1, "BTC", PoolRiskStatus.low⟩ : PoolRec).id) e ∧
          D = l.amount - e.amount) ∧
      ((∀ c ∈ poolContribs [⟨1, 1, 1, 100, -10⟩]
            (⟨1, "BTC", PoolRiskStatus.low⟩ : PoolRec).id,
          ¬((0 : ℤ) - 100 ≤ c.created_at ∧ c.created_at ≤ 0)) → D = 0) :=
  fetchAll_per_pool_spec 0 100 [⟨1, "BTC", PoolRiskStatus.low⟩]
    [⟨1, 1, 1, 100, -10⟩] ⟨1, "BTC", PoolRiskStatus.low⟩
    (by decide) (by decide) (by decide)

/-- C10: `UserPoolCRUD.update_user_pool(user_pool_id, amount)` returns
`None` and leaves the store unchanged when no row with the given id exists;
when one exists, only the `amount` field can change (`created_at`,
`user_id` and `pool_id` never do, and no other row is touched), and the
amount is written only when the argument is truthy — `None` and
`Decimal(0)` both leave the stored amount as it was while the call still
returns the record as a successful update. -/
theorem update_user_pool_spec (db : List Contribution) (i : Nat)
    (amount : Option ℤ) :
    (dbGet db i = none → update_user_pool db i amount = (none, db)) ∧
    (∀ up, dbGet db i = some up →
      ∃ up2,
        update_user_pool db i amount =
          (some up2, db.map (fun r => if r.id = i then up2 else r)) ∧
        up2.id = up.id ∧ up2.user_id = up.user_id ∧ up2.pool_id = up.pool_id ∧
        up2.created_at = up.created_at ∧
        ((amount = none ∨ amount = some 0) → up2.amount = up.amount) ∧
        (∀ a : ℤ, amount = some a → a ≠ 0 → up2.amount = a) ∧
        ∀ r ∈ db, r.id ≠ i → r ∈ (update_user_pool db i amount).2) := by
  constructor
  · intro h
    simp [update_user_pool, h]
  · intro up hup
    refine ⟨match amount with
      | some a => if a = 0 then up else { up with amount := a }
      | none => up, ?_, ?_, ?_, ?_, ?_, ?_, ?_, ?_⟩
    · simp [update_user_pool, hup]
    · cases amount with
      | none => rfl
      | some a => by_cases ha : a = 0 <;> simp [ha]
    · cases amount with
      | none => rfl
      | some a => by_cases ha : a = 0 <;> simp [ha]
    · cases amount with
      | none => rfl
      | some a => by_cases ha : a = 0 <;> simp [ha]
    · cases amount with
      | none => rfl
      | some a => by_cases ha : a = 0 <;> simp [ha]
    · rintro (h | h) <;> subst h <;> simp
    · intro a ha hne
      subst ha
      simp [hne]
    · intro r hr hne
      simp only [update_user_pool, hup]
      exact List.mem_map.mpr ⟨r, hr, by simp [hne]⟩

/-- Witness for C10 at a concrete store: updating a missing id returns
`None` with the store unchanged, and updating an existing row with
`Decimal(0)` (falsy) returns the row with its amount still 5. -/
theorem update_user_pool_spec_witness :
    update_user_pool [⟨1, 2, 3, 5, 10⟩] 4 (some 7) =
      (none, [⟨1, 2, 3, 5, 10⟩]) ∧
    ∃ up2, update_user_pool [⟨1, 2, 3, 5, 10⟩] 1 (some 0) =
        (some up2, [⟨1, 2, 3, 5, 10⟩].map (fun r => if r.id = 1 then up2 else r)) ∧
      up2.amount = 5 := by
  refine ⟨(update_user_pool_spec [⟨1, 2, 3, 5, 10⟩] 4 (some 7)).1 rfl, ?_⟩
  obtain ⟨up2, heq, -, -, -, -, hz, -, -⟩ :=
    (update_user_pool_spec [⟨1, 2, 3, 5, 10⟩] 1 (some 0)).2 ⟨1, 2, 3, 5, 10⟩ rfl
  exact ⟨up2, heq, by rw [hz (Or.inr rfl)]⟩
